import Mathlib

/-
  Shallow embedding of the eci storage engine (Rust workspace: eci-core,
  eci-backend-sqlite, eci-query) and proofs about its locking and access
  layers.

  Conventions of the embedding:
  - `Entity` wraps an opaque numeric id (the Rust type wraps a random Uuid;
    only identity comparison matters, which the SQL performs on the
    stringified uuid).
  - Timestamps and durations are natural numbers (seconds).  The SQL
    comparison `datetime(current_timestamp) < datetime(expires)` becomes
    `now < expires`.
  - A SQLite transaction is modelled by running the statement sequence on a
    working copy of the state and returning the original state whenever the
    function returns an error before `tx.commit()` (dropping an uncommitted
    rusqlite transaction rolls it back).
-/

namespace Eci

/-- The two locking modes, from eci-core/src/backend/lock.rs (`LockingMode`). -/
inductive LockingMode where
  | Read
  | Write
deriving DecidableEq, Repr

/-- An entity identifier, from eci-core/src/entity.rs: a struct wrapping an
opaque unique id (Uuid).  The SQL layers compare its string form; we model the
id as a natural number. -/
structure Entity where
  id : Nat
deriving DecidableEq, Repr

/-- Errors of the locking layer, from eci-core/src/backend/lock.rs
(`LockingError`): an opaque implementation error, or a conflict carrying the
entity, the component name and the requested mode.  The Rust `Box<dyn Error>`
payload is modelled as a message string. -/
inductive LockingError where
  | Implementation (msg : String)
  | Conflict (entity : Entity) (component : String) (mode : LockingMode)
deriving DecidableEq, Repr

/-- A lock handle, from eci-core/src/backend/lock.rs (`Lock`): an opaque id
(Uuid v4 in the source, modelled as a natural number chosen by the caller of
the embedding, standing for the freshly generated uuid). -/
structure Lock where
  id : Nat
deriving DecidableEq, Repr

/-- A requested lease shape, from eci-core/src/backend/lock.rs
(`LockDescriptor`): a mode and a component name.  Note: the descriptor carries
no version. -/
structure LockDescriptor where
  mode : LockingMode
  name : String
deriving DecidableEq, Repr

/-- One row of the sqlite `locks` table, per `create_lock_table` in
eci-backend-sqlite/src/lock.rs: columns lockid, entity, component, locktype,
expires.  There is no version column. -/
structure LeaseRow where
  lockid : Nat
  entity : Entity
  component : String
  locktype : LockingMode
  expires : Nat
deriving DecidableEq, Repr

/-- The shared lease table. -/
abbrev LockTable := List LeaseRow

/-- The `where not exists(...)` subquery of the WRITE_LOCK statement in
eci-backend-sqlite/src/lock.rs: a write request is blocked when any lease row
on the same (entity, component) is unexpired, regardless of its locktype. -/
def writeBlocked (now : Nat) (e : Entity) (n : String) (L : LockTable) : Prop :=
  ∃ r ∈ L, r.entity = e ∧ r.component = n ∧ now < r.expires

instance (now : Nat) (e : Entity) (n : String) (L : LockTable) :
    Decidable (writeBlocked now e n L) := by
  unfold writeBlocked; exact List.decidableBEx _ L

/-- The `where not exists(...)` subquery of the READ_LOCK statement in
eci-backend-sqlite/src/lock.rs: a read request is blocked only by an unexpired
lease row of locktype write on the same (entity, component). -/
def readBlocked (now : Nat) (e : Entity) (n : String) (L : LockTable) : Prop :=
  ∃ r ∈ L, r.locktype = LockingMode.Write ∧ r.entity = e ∧ r.component = n ∧ now < r.expires

instance (now : Nat) (e : Entity) (n : String) (L : LockTable) :
    Decidable (readBlocked now e n L) := by
  unfold readBlocked; exact List.decidableBEx _ L

/-- One conditional insert executed by `acquire_lock` for one descriptor: the
WRITE_LOCK or READ_LOCK statement.  Returns the updated working table when one
row was inserted, and `none` when the `where not exists` clause suppressed the
insert (zero affected rows).  The inserted row is
(lockid, entity, name, mode, now + ttl), mirroring
`:expires = Utc::now() + expires_in`. -/
def lockInsert (now lockid : Nat) (e : Entity) (ttl : Nat) (d : LockDescriptor)
    (L : LockTable) : Option LockTable :=
  match d.mode with
  | LockingMode.Read =>
      if readBlocked now e d.name L then none
      else some (L ++ [⟨lockid, e, d.name, LockingMode.Read, now + ttl⟩])
  | LockingMode.Write =>
      if writeBlocked now e d.name L then none
      else some (L ++ [⟨lockid, e, d.name, LockingMode.Write, now + ttl⟩])

/-- The descriptor loop of `acquire_lock` in eci-backend-sqlite/src/lock.rs,
run inside one transaction: each descriptor performs its conditional insert on
the working table; the first insert affecting zero rows aborts with
`LockingError::Conflict(entity, descriptor.name, descriptor.mode)`.  On
success the committed table is returned. -/
def acquireLock (now lockid : Nat) (e : Entity) (ds : List LockDescriptor)
    (ttl : Nat) (L : LockTable) : Except LockingError LockTable :=
  match ds with
  | [] => Except.ok L
  | d :: rest =>
      match lockInsert now lockid e ttl d L with
      | none => Except.error (LockingError.Conflict e d.name d.mode)
      | some L1 => acquireLock now lockid e rest ttl L1

/-- State-level view of `acquire_lock`: on success the transaction commits and
the new table is visible; on error the transaction is dropped uncommitted, so
the lease table is unchanged. -/
def acquireLockState (now lockid : Nat) (e : Entity) (ds : List LockDescriptor)
    (ttl : Nat) (L : LockTable) : Except LockingError Lock × LockTable :=
  match acquireLock now lockid e ds ttl L with
  | Except.ok L1 => (Except.ok ⟨lockid⟩, L1)
  | Except.error err => (Except.error err, L)

/-- The `release_lock` of eci-backend-sqlite/src/lock.rs: executes
`delete from locks where lockid = :lockid` and returns Ok regardless of how
many rows were deleted. -/
def releaseLock (l : Lock) (L : LockTable) : Except LockingError Unit × LockTable :=
  (Except.ok (), L.filter (fun r => decide (r.lockid ≠ l.id)))

/-- Errors of the access layer, from eci-core/src/backend/access.rs
(`AccessError`): implementation, serialization, or a conflict carrying the
entity and the component name.  The boxed error payloads are modelled as
message strings.  Note: the conflict variant carries no version. -/
inductive AccessError where
  | Implementation (msg : String)
  | Serialization (msg : String)
  | Conflict (entity : Entity) (component : String)
deriving DecidableEq, Repr

/-- The backend-neutral transport form of a component, from
eci-core/src/backend/access.rs (`SerializedComponent`): an opaque payload
(modelled as a string of bytes) and a component name. -/
structure SerializedComponent where
  contents : String
  name : String
deriving DecidableEq, Repr

/-- An extraction descriptor, from eci-core/src/backend/access.rs
(`ExtractionDescriptor`): it consists solely of a component name.  There is no
other variant. -/
structure ExtractionDescriptor where
  name : String
deriving DecidableEq, Repr

/-- One row of a per-component sqlite table, per the statement
`create table if not exists {name} (entity text not null unique, contents blob
not null)` in eci-backend-sqlite/src/access.rs. -/
structure ComponentRow where
  entity : Entity
  contents : String
deriving DecidableEq, Repr

/-- The component store: one table (a row list) per component name, created
on demand.  Modelled as an association list from table name to rows. -/
abbrev Store := List (String × List ComponentRow)

/-- Look up the table for a component name, or `none` if it was never
created. -/
def lookupTable (s : Store) (n : String) : Option (List ComponentRow) :=
  (s.find? (fun t => decide (t.1 = n))).map (fun t => t.2)

/-- Replace the row list of an existing table. -/
def updateTable (s : Store) (n : String) (rows : List ComponentRow) : Store :=
  s.map (fun t => if t.1 = n then (n, rows) else t)

/-- The statement `create table if not exists {name} ...` executed by
`write_components` for each entry. -/
def createTableIfNotExists (s : Store) (n : String) : Store :=
  match lookupTable s n with
  | some _ => s
  | none => s ++ [(n, [])]

/-- The statement `insert into {name} (entity, contents) values(...)` as
executed through `tx.execute`: SQLite reports a violation of the table's
uniqueness constraint on `entity` as a statement error (which rusqlite
surfaces as `Err`), so the call either fails with that error or inserts
exactly one row. -/
def sqlInsertComponent (s : Store) (n : String) (e : Entity) (c : String) :
    Except String (Nat × Store) :=
  match lookupTable s n with
  | none => Except.error "no such table"
  | some rows =>
      if rows.any (fun r => decide (r.entity = e)) then
        Except.error "UNIQUE constraint failed"
      else
        Except.ok (1, updateTable s n (rows ++ [⟨e, c⟩]))

/-- The entry loop of `write_components` in eci-backend-sqlite/src/access.rs,
run inside one transaction: for each serialized component, create its table if
needed, then insert; a statement error is wrapped as
`AccessError::implementation` and propagated; if the insert reports other than
one affected row the loop would return `AccessError::Conflict(entity, name)`
(this mirrors the source's check, although a plain INSERT either errors or
affects one row). -/
def writeComponents (e : Entity) (comps : List SerializedComponent) (s : Store) :
    Except AccessError Store :=
  match comps with
  | [] => Except.ok s
  | c :: rest =>
      match sqlInsertComponent (createTableIfNotExists s c.name) c.name e c.contents with
      | Except.error msg => Except.error (AccessError.Implementation msg)
      | Except.ok (n, s2) =>
          if n ≠ 1 then Except.error (AccessError.Conflict e c.name)
          else writeComponents e rest s2

/-- State-level view of `write_components`: on success the transaction commits;
on any error the transaction is dropped uncommitted and the store is unchanged
(including any table creations and earlier inserts of the same call). -/
def writeComponentsState (e : Entity) (comps : List SerializedComponent)
    (s : Store) : Except AccessError Unit × Store :=
  match writeComponents e comps s with
  | Except.ok s1 => (Except.ok (), s1)
  | Except.error err => (Except.error err, s)

/-- Resolution of one extraction descriptor by `read_components` in
eci-backend-sqlite/src/access.rs: `query_row("select contents from {name}
where entity = :entity", ...).ok()` — a missing table or missing row both
yield `None`; a present row yields the serialized component carrying the
descriptor's name. -/
def readOne (e : Entity) (d : ExtractionDescriptor) (s : Store) :
    Option SerializedComponent :=
  match lookupTable s d.name with
  | none => none
  | some rows =>
      (rows.find? (fun r => decide (r.entity = e))).map
        (fun r => ⟨r.contents, d.name⟩)

/-- The descriptor loop of `read_components`: one pushed result per
descriptor, in request order.  Reading performs no mutation. -/
def readComponents (e : Entity) (ds : List ExtractionDescriptor) (s : Store) :
    List (Option SerializedComponent) :=
  match ds with
  | [] => []
  | d :: rest => readOne e d s :: readComponents e rest s

/-- A semantic version, from the `semver::Version` constants attached to each
component type (`Component::VERSION`, eci-core/src/component.rs). -/
structure Version where
  major : Nat
  minor : Nat
  patch : Nat
deriving DecidableEq, Repr

/-- A component identity as the data model defines it: the (name, version)
pair carried by each component type (`Component::NAME` / `Component::VERSION`
in eci-core/src/component.rs). -/
structure ComponentIdentity where
  name : String
  version : Version
deriving DecidableEq, Repr

/-- The lock descriptor the query layer derives from a component type, per
`LockableComponent::as_lock` in eci-query/src/lib.rs: the descriptor records
the mode and the component's type name only — the component's version is not
part of the descriptor and never reaches the locking backend. -/
def componentLockDescriptor (c : ComponentIdentity) (m : LockingMode) :
    LockDescriptor :=
  ⟨m, c.name⟩

/-- One selector of a declared query shape, per the `Extractor`
implementations in eci-query/src/lib.rs: a shared reference selector locks in
Read mode and a mutable reference selector locks in Write mode.  No other
selector kind exists in the active code. -/
inductive Selector where
  | readRef (name : String)
  | writeRef (name : String)
deriving DecidableEq, Repr

/-- The component name a selector refers to. -/
def Selector.cname : Selector → String
  | Selector.readRef n => n
  | Selector.writeRef n => n

/-- The lock descriptor of one selector (`LockableComponent::as_lock`). -/
def Selector.asLock : Selector → LockDescriptor
  | Selector.readRef n => ⟨LockingMode.Read, n⟩
  | Selector.writeRef n => ⟨LockingMode.Write, n⟩

/-- The `Extractor::extract` derivation: one extraction descriptor per
selector, in declared order, carrying the component's type name. -/
def extractShape (shape : List Selector) : List ExtractionDescriptor :=
  shape.map (fun sel => ⟨sel.cname⟩)

/-- The `Extractor::describe` derivation: one lock descriptor per selector,
in declared order. -/
def describeShape (shape : List Selector) : List LockDescriptor :=
  shape.map Selector.asLock

/-- The pluggable Format boundary (`Format::deserialize`): a fallible codec
from an opaque payload to a typed value (modelled as the decoded string). -/
abbrev Deserializer := String → Except AccessError String

/-- The `Extractor::from` slot loop of eci-query/src/lib.rs: slots are
processed in declared order; an absent slot returns Ok(None) at once; a
present slot is deserialized, any deserialization error propagating
immediately; when every slot is present and deserializes, the typed values are
returned in order. -/
def extractorFrom (fmt : Deserializer) :
    List (Option SerializedComponent) → Except AccessError (Option (List String))
  | [] => Except.ok (some [])
  | none :: _ => Except.ok none
  | some c :: rest =>
      match fmt c.contents with
      | Except.error err => Except.error err
      | Except.ok v =>
          match extractorFrom fmt rest with
          | Except.error err => Except.error err
          | Except.ok none => Except.ok none
          | Except.ok (some vs) => Except.ok (some (v :: vs))

/-- Backend errors, from eci-core/src/backend/mod.rs (`BackendError`). -/
inductive BackendError where
  | Access (err : AccessError)
  | Locking (err : LockingError)
deriving DecidableEq, Repr

/-- The joint backend state: the component store and the lease table. -/
structure BackendState where
  store : Store
  locks : LockTable
deriving DecidableEq, Repr

/-- A backend primitive invoked by the query layer; `get` is instrumented to
record the calls it makes, so that claims about which primitives run (and
with which arguments) are statable. -/
inductive BackendOp where
  | readComps (e : Entity) (ds : List ExtractionDescriptor)
  | acquire (e : Entity) (ds : List LockDescriptor) (ttlSecs : Nat)
  | release (l : Lock)
deriving DecidableEq, Repr

/-- Whether an op is an acquire_lock call. -/
def BackendOp.isAcquire : BackendOp → Bool
  | BackendOp.acquire _ _ _ => true
  | _ => false

/-- The ttl passed to an acquire_lock call, if the op is one. -/
def BackendOp.acquireTtl : BackendOp → Option Nat
  | BackendOp.acquire _ _ ttl => some ttl
  | _ => none

/-- The `TypedBackend::get` protocol of eci-query/src/lib.rs: read the
extraction descriptors of the shape, run `Select::from` over the results, and
only when that yields Some values call `acquire_lock` over the shape's lock
descriptors with the hard-coded ttl `Duration::from_secs(3600)`; on conflict
the locking error is surfaced.  Returns the outcome, the new backend state and
the trace of backend calls made. -/
def getTyped (fmt : Deserializer) (now lockid : Nat) (shape : List Selector)
    (e : Entity) (st : BackendState) :
    Except BackendError (Option (Lock × List String)) × BackendState × List BackendOp :=
  match extractorFrom fmt (readComponents e (extractShape shape) st.store) with
  | Except.error err =>
      (Except.error (BackendError.Access err), st,
        [BackendOp.readComps e (extractShape shape)])
  | Except.ok none =>
      (Except.ok none, st, [BackendOp.readComps e (extractShape shape)])
  | Except.ok (some values) =>
      match acquireLockState now lockid e (describeShape shape) 3600 st.locks with
      | (Except.ok l, locks1) =>
          (Except.ok (some (l, values)), ⟨st.store, locks1⟩,
            [BackendOp.readComps e (extractShape shape),
             BackendOp.acquire e (describeShape shape) 3600])
      | (Except.error err, locks1) =>
          (Except.error (BackendError.Locking err), ⟨st.store, locks1⟩,
            [BackendOp.readComps e (extractShape shape),
             BackendOp.acquire e (describeShape shape) 3600])

/-! Helper lemmas about the locking layer. -/

theorem acquireLock_nil (now lockid : Nat) (e : Entity) (ttl : Nat) (L : LockTable) :
    acquireLock now lockid e [] ttl L = Except.ok L := rfl

theorem acquireLock_cons_ok {now lockid ttl : Nat} {e : Entity} {d : LockDescriptor}
    {rest : List LockDescriptor} {L L1 : LockTable}
    (h : lockInsert now lockid e ttl d L = some L1) :
    acquireLock now lockid e (d :: rest) ttl L = acquireLock now lockid e rest ttl L1 := by
  simp [acquireLock, h]

theorem acquireLock_cons_err {now lockid ttl : Nat} {e : Entity} {d : LockDescriptor}
    {rest : List LockDescriptor} {L : LockTable}
    (h : lockInsert now lockid e ttl d L = none) :
    acquireLock now lockid e (d :: rest) ttl L =
      Except.error (LockingError.Conflict e d.name d.mode) := by
  simp [acquireLock, h]

theorem lockInsert_read_not_blocked {now : Nat} {e : Entity} {n : String}
    {L : LockTable} (h : ¬ readBlocked now e n L) (lockid ttl : Nat) :
    lockInsert now lockid e ttl ⟨LockingMode.Read, n⟩ L =
      some (L ++ [⟨lockid, e, n, LockingMode.Read, now + ttl⟩]) := by
  simp [lockInsert, h]

theorem lockInsert_read_blocked {now : Nat} {e : Entity} {n : String}
    {L : LockTable} (h : readBlocked now e n L) (lockid ttl : Nat) :
    lockInsert now lockid e ttl ⟨LockingMode.Read, n⟩ L = none := by
  simp [lockInsert, h]

theorem lockInsert_write_not_blocked {now : Nat} {e : Entity} {n : String}
    {L : LockTable} (h : ¬ writeBlocked now e n L) (lockid ttl : Nat) :
    lockInsert now lockid e ttl ⟨LockingMode.Write, n⟩ L =
      some (L ++ [⟨lockid, e, n, LockingMode.Write, now + ttl⟩]) := by
  simp [lockInsert, h]

theorem lockInsert_write_blocked {now : Nat} {e : Entity} {n : String}
    {L : LockTable} (h : writeBlocked now e n L) (lockid ttl : Nat) :
    lockInsert now lockid e ttl ⟨LockingMode.Write, n⟩ L = none := by
  simp [lockInsert, h]

theorem lockInsert_some_elim {now lockid ttl : Nat} {e : Entity} {d : LockDescriptor}
    {L L1 : LockTable} (h : lockInsert now lockid e ttl d L = some L1) :
    L1 = L ++ [⟨lockid, e, d.name, d.mode, now + ttl⟩] := by
  cases d with
  | mk m n =>
      cases m <;> unfold lockInsert at h <;> dsimp at h <;> split at h <;> simp_all

theorem acquireLock_error_decomp {now lockid ttl : Nat} {e : Entity}
    {ds : List LockDescriptor} {L : LockTable} {err : LockingError}
    (h : acquireLock now lockid e ds ttl L = Except.error err) :
    ∃ pre d post L1,
      ds = pre ++ d :: post ∧
      acquireLock now lockid e pre ttl L = Except.ok L1 ∧
      lockInsert now lockid e ttl d L1 = none ∧
      err = LockingError.Conflict e d.name d.mode := by
  induction ds generalizing L with
  | nil => simp [acquireLock] at h
  | cons d rest ih =>
      cases hins : lockInsert now lockid e ttl d L with
      | none =>
          rw [acquireLock_cons_err hins] at h
          refine ⟨[], d, rest, L, rfl, rfl, hins, ?_⟩
          injection h with h2
          exact h2.symm
      | some L1 =>
          rw [acquireLock_cons_ok hins] at h
          obtain ⟨pre, d2, post, L2, hds, hpre, hfail, herr⟩ := ih h
          refine ⟨d :: pre, d2, post, L2, by rw [hds]; rfl, ?_, hfail, herr⟩
          rw [acquireLock_cons_ok hins, hpre]

/-! Theorems for the claims about the locking layer. -/

/-- C1: acquire_lock obeys the read/write compatibility matrix on a resource
keyed by (entity, component name): (1) a Read acquisition succeeds while every
unexpired lease on (E, C) is a Read lease; (2) an acquisition of either mode
fails with a Conflict while an unexpired Write lease is held on (E, C); (3) a
Write acquisition fails while any unexpired lease is held on (E, C); (4)
acquisitions never conflict with leases held on a different component name or
a different entity. -/
theorem acquire_lock_compatibility_matrix :
    (∀ (now lockid : Nat) (e : Entity) (n : String) (ttl : Nat) (L : LockTable),
        (∀ r ∈ L, r.entity = e → r.component = n → now < r.expires →
          r.locktype = LockingMode.Read) →
        acquireLock now lockid e [⟨LockingMode.Read, n⟩] ttl L =
          Except.ok (L ++ [⟨lockid, e, n, LockingMode.Read, now + ttl⟩])) ∧
    (∀ (now lockid : Nat) (e : Entity) (n : String) (m : LockingMode) (ttl : Nat)
        (L : LockTable),
        (∃ r ∈ L, r.entity = e ∧ r.component = n ∧ r.locktype = LockingMode.Write ∧
          now < r.expires) →
        acquireLock now lockid e [⟨m, n⟩] ttl L =
          Except.error (LockingError.Conflict e n m)) ∧
    (∀ (now lockid : Nat) (e : Entity) (n : String) (ttl : Nat) (L : LockTable),
        (∃ r ∈ L, r.entity = e ∧ r.component = n ∧ now < r.expires) →
        acquireLock now lockid e [⟨LockingMode.Write, n⟩] ttl L =
          Except.error (LockingError.Conflict e n LockingMode.Write)) ∧
    (∀ (now lockid : Nat) (e : Entity) (n : String) (m : LockingMode) (ttl : Nat)
        (L : LockTable),
        (∀ r ∈ L, ¬(r.entity = e ∧ r.component = n)) →
        acquireLock now lockid e [⟨m, n⟩] ttl L =
          Except.ok (L ++ [⟨lockid, e, n, m, now + ttl⟩])) := by
  refine ⟨?_, ?_, ?_, ?_⟩
  · intro now lockid e n ttl L hall
    have hnb : ¬ readBlocked now e n L := by
      rintro ⟨r, hrL, hw, he, hn, hexp⟩
      have hr := hall r hrL he hn hexp
      rw [hr] at hw
      exact LockingMode.noConfusion hw
    rw [acquireLock_cons_ok (lockInsert_read_not_blocked hnb lockid ttl), acquireLock_nil]
  · intro now lockid e n m ttl L hex
    obtain ⟨r, hrL, he, hn, hw, hexp⟩ := hex
    cases m
    · exact acquireLock_cons_err (lockInsert_read_blocked ⟨r, hrL, hw, he, hn, hexp⟩ lockid ttl)
    · exact acquireLock_cons_err (lockInsert_write_blocked ⟨r, hrL, he, hn, hexp⟩ lockid ttl)
  · intro now lockid e n ttl L hex
    obtain ⟨r, hrL, he, hn, hexp⟩ := hex
    exact acquireLock_cons_err (lockInsert_write_blocked ⟨r, hrL, he, hn, hexp⟩ lockid ttl)
  · intro now lockid e n m ttl L hnone
    have hnr : ¬ readBlocked now e n L := by
      rintro ⟨r, hrL, _, he, hn, _⟩
      exact hnone r hrL ⟨he, hn⟩
    have hnw : ¬ writeBlocked now e n L := by
      rintro ⟨r, hrL, he, hn, _⟩
      exact hnone r hrL ⟨he, hn⟩
    cases m
    · rw [acquireLock_cons_ok (lockInsert_read_not_blocked hnr lockid ttl), acquireLock_nil]
    · rw [acquireLock_cons_ok (lockInsert_write_not_blocked hnw lockid ttl), acquireLock_nil]

/-- Witness for C1: concrete instances of all four clauses of the matrix:
read-after-read succeeds, read-after-write conflicts, write-after-read
conflicts, and a write on a different component name succeeds. -/
theorem acquire_lock_compatibility_matrix_witness :
    acquireLock 0 6 ⟨1⟩ [⟨LockingMode.Read, "A"⟩] 10 [⟨5, ⟨1⟩, "A", LockingMode.Read, 10⟩] =
      Except.ok ([⟨5, ⟨1⟩, "A", LockingMode.Read, 10⟩] ++
        [⟨6, ⟨1⟩, "A", LockingMode.Read, 10⟩]) ∧
    acquireLock 0 6 ⟨1⟩ [⟨LockingMode.Read, "A"⟩] 10 [⟨5, ⟨1⟩, "A", LockingMode.Write, 10⟩] =
      Except.error (LockingError.Conflict ⟨1⟩ "A" LockingMode.Read) ∧
    acquireLock 0 6 ⟨1⟩ [⟨LockingMode.Write, "A"⟩] 10 [⟨5, ⟨1⟩, "A", LockingMode.Read, 10⟩] =
      Except.error (LockingError.Conflict ⟨1⟩ "A" LockingMode.Write) ∧
    acquireLock 0 6 ⟨1⟩ [⟨LockingMode.Write, "B"⟩] 10 [⟨5, ⟨1⟩, "A", LockingMode.Write, 10⟩] =
      Except.ok ([⟨5, ⟨1⟩, "A", LockingMode.Write, 10⟩] ++
        [⟨6, ⟨1⟩, "B", LockingMode.Write, 10⟩]) :=
  ⟨acquire_lock_compatibility_matrix.1 0 6 ⟨1⟩ "A" 10 _ (by decide),
   acquire_lock_compatibility_matrix.2.1 0 6 ⟨1⟩ "A" LockingMode.Read 10 _ (by decide),
   acquire_lock_compatibility_matrix.2.2.1 0 6 ⟨1⟩ "A" 10 _ (by decide),
   acquire_lock_compatibility_matrix.2.2.2 0 6 ⟨1⟩ "B" LockingMode.Write 10 _ (by decide)⟩

/-- C2: acquire_lock is all-or-nothing: whenever it returns an error, the
lease table is exactly as before the call, and the error is a Conflict naming
the entity, component name and mode of the first descriptor whose conditional
insert affected zero rows (every earlier descriptor's insert having
succeeded).  Note: the Conflict payload of the source carries no version. -/
theorem acquire_lock_all_or_nothing :
    ∀ (now lockid ttl : Nat) (e : Entity) (ds : List LockDescriptor)
      (L L2 : LockTable) (err : LockingError),
      acquireLockState now lockid e ds ttl L = (Except.error err, L2) →
      L2 = L ∧
      ∃ pre d post L1,
        ds = pre ++ d :: post ∧
        acquireLock now lockid e pre ttl L = Except.ok L1 ∧
        lockInsert now lockid e ttl d L1 = none ∧
        err = LockingError.Conflict e d.name d.mode := by
  intro now lockid ttl e ds L L2 err h
  unfold acquireLockState at h
  cases hres : acquireLock now lockid e ds ttl L with
  | ok L1 => rw [hres] at h; simp at h
  | error err2 =>
      rw [hres] at h
      obtain ⟨h1, h2⟩ := Prod.mk.injEq .. ▸ h
      injection h1 with h1
      subst h1
      subst h2
      exact ⟨rfl, acquireLock_error_decomp hres⟩

/-- Witness for C2: the theorem applied to a single Read request against a
table holding an unexpired Write lease on the same (entity, name). -/
theorem acquire_lock_all_or_nothing_witness :
    ([⟨5, ⟨1⟩, "A", LockingMode.Write, 10⟩] : LockTable) =
      [⟨5, ⟨1⟩, "A", LockingMode.Write, 10⟩] ∧
    ∃ pre d post L1,
      ([⟨LockingMode.Read, "A"⟩] : List LockDescriptor) = pre ++ d :: post ∧
      acquireLock 0 6 ⟨1⟩ pre 10 [⟨5, ⟨1⟩, "A", LockingMode.Write, 10⟩] = Except.ok L1 ∧
      lockInsert 0 6 ⟨1⟩ 10 d L1 = none ∧
      LockingError.Conflict ⟨1⟩ "A" LockingMode.Read =
        LockingError.Conflict ⟨1⟩ d.name d.mode :=
  acquire_lock_all_or_nothing 0 6 10 ⟨1⟩ _ _ _ _ rfl

/-- Counterexample for C2's version clause: the Conflict error returned by a
failing acquire_lock cannot carry the failing descriptor's version — two
failing calls whose component identities differ only in version produce
literally identical results, because neither the descriptor
(`LockDescriptor`, mode and name only) nor the error
(`LockingError::Conflict(Entity, String, LockingMode)`) has a version field. -/
theorem acquire_conflict_error_no_version :
    (⟨"A", ⟨1, 0, 0⟩⟩ : ComponentIdentity).version ≠
      (⟨"A", ⟨2, 0, 0⟩⟩ : ComponentIdentity).version ∧
    acquireLockState 0 6 ⟨1⟩ [componentLockDescriptor ⟨"A", ⟨1, 0, 0⟩⟩ LockingMode.Read] 10
        [⟨5, ⟨1⟩, "A", LockingMode.Write, 10⟩] =
      acquireLockState 0 6 ⟨1⟩ [componentLockDescriptor ⟨"A", ⟨2, 0, 0⟩⟩ LockingMode.Read] 10
        [⟨5, ⟨1⟩, "A", LockingMode.Write, 10⟩] ∧
    (acquireLockState 0 6 ⟨1⟩ [componentLockDescriptor ⟨"A", ⟨1, 0, 0⟩⟩ LockingMode.Read] 10
        [⟨5, ⟨1⟩, "A", LockingMode.Write, 10⟩]).1 =
      Except.error (LockingError.Conflict ⟨1⟩ "A" LockingMode.Read) :=
  ⟨by decide, rfl, rfl⟩

/-- Counterexample for C3: in the source the locks table has no version
column and lock descriptors carry no version
(`LockableComponent::as_lock` records only the component's type name), so a
Write lease taken for version 1.0.0 of component A makes a Write acquisition
for version 2.0.0 of the same name fail with a Conflict — refuting the claim
that different versions of an identically-named component lock
independently. -/
theorem lock_version_counterexample :
    (⟨1, 0, 0⟩ : Version) ≠ (⟨2, 0, 0⟩ : Version) ∧
    acquireLock 0 5 ⟨1⟩ [componentLockDescriptor ⟨"A", ⟨1, 0, 0⟩⟩ LockingMode.Write] 10 [] =
      Except.ok [⟨5, ⟨1⟩, "A", LockingMode.Write, 10⟩] ∧
    acquireLock 0 6 ⟨1⟩ [componentLockDescriptor ⟨"A", ⟨2, 0, 0⟩⟩ LockingMode.Write] 10
        [⟨5, ⟨1⟩, "A", LockingMode.Write, 10⟩] =
      Except.error (LockingError.Conflict ⟨1⟩ "A" LockingMode.Write) :=
  ⟨by decide, rfl, rfl⟩

/-- C3 amended: the lock resource key is (entity, component name) only; the
component version is not part of the key.  The descriptor derived from a
component identity is independent of the version, and an unexpired Write lease
taken for one version of a name makes any acquisition on another version of
the same name fail with a Conflict. -/
theorem lock_key_ignores_version :
    ∀ (n : String) (v1 v2 : Version) (m : LockingMode),
      componentLockDescriptor ⟨n, v1⟩ m = componentLockDescriptor ⟨n, v2⟩ m ∧
      ∀ (now lockid lockid2 ttl ttl2 : Nat) (e : Entity) (L L1 : LockTable)
        (m2 : LockingMode),
        0 < ttl →
        acquireLock now lockid e [componentLockDescriptor ⟨n, v1⟩ LockingMode.Write] ttl L =
          Except.ok L1 →
        acquireLock now lockid2 e [componentLockDescriptor ⟨n, v2⟩ m2] ttl2 L1 =
          Except.error (LockingError.Conflict e n m2) := by
  intro n v1 v2 m
  refine ⟨rfl, ?_⟩
  intro now lockid lockid2 ttl ttl2 e L L1 m2 httl hok
  have hins : lockInsert now lockid e ttl ⟨LockingMode.Write, n⟩ L = some L1 := by
    cases hi : lockInsert now lockid e ttl ⟨LockingMode.Write, n⟩ L with
    | none =>
        rw [show componentLockDescriptor ⟨n, v1⟩ LockingMode.Write =
              (⟨LockingMode.Write, n⟩ : LockDescriptor) from rfl,
            acquireLock_cons_err hi] at hok
        cases hok
    | some L2 =>
        rw [show componentLockDescriptor ⟨n, v1⟩ LockingMode.Write =
              (⟨LockingMode.Write, n⟩ : LockDescriptor) from rfl,
            acquireLock_cons_ok hi, acquireLock_nil] at hok
        injection hok with h2
        exact h2 ▸ rfl
  have hL1 := lockInsert_some_elim hins
  have hrow : (⟨lockid, e, n, LockingMode.Write, now + ttl⟩ : LeaseRow) ∈ L1 := by
    rw [hL1]
    simp
  have hexp : now < now + ttl := Nat.lt_add_of_pos_right httl
  cases m2 with
  | Read =>
      exact acquireLock_cons_err
        (lockInsert_read_blocked ⟨_, hrow, rfl, rfl, rfl, hexp⟩ lockid2 ttl2)
  | Write =>
      exact acquireLock_cons_err
        (lockInsert_write_blocked ⟨_, hrow, rfl, rfl, hexp⟩ lockid2 ttl2)

/-- Witness for the amended C3 theorem: versions 1.0.0 and 2.0.0 of component
name A — the derived descriptors coincide and the second acquisition (Read,
other version) conflicts with the first (Write). -/
theorem lock_key_ignores_version_witness :
    componentLockDescriptor ⟨"A", ⟨1, 0, 0⟩⟩ LockingMode.Write =
      componentLockDescriptor ⟨"A", ⟨2, 0, 0⟩⟩ LockingMode.Write ∧
    acquireLock 0 6 ⟨1⟩ [componentLockDescriptor ⟨"A", ⟨2, 0, 0⟩⟩ LockingMode.Read] 7
        [⟨5, ⟨1⟩, "A", LockingMode.Write, 10⟩] =
      Except.error (LockingError.Conflict ⟨1⟩ "A" LockingMode.Read) :=
  ⟨(lock_key_ignores_version "A" ⟨1, 0, 0⟩ ⟨2, 0, 0⟩ LockingMode.Write).1,
   (lock_key_ignores_version "A" ⟨1, 0, 0⟩ ⟨2, 0, 0⟩ LockingMode.Write).2
     0 5 6 10 7 ⟨1⟩ [] [⟨5, ⟨1⟩, "A", LockingMode.Write, 10⟩] LockingMode.Read
     (by decide) rfl⟩

/-- C9: release_lock deletes every lease row carrying the lock's id, keeps
every other row, returns success even when no such rows remain (it is
idempotent), and afterwards a Write acquisition succeeds on any resource whose
unexpired leases all belonged to the released lock. -/
theorem release_lock_idempotent_and_frees :
    ∀ (l : Lock) (L : LockTable),
      (releaseLock l L).1 = Except.ok () ∧
      (∀ r ∈ (releaseLock l L).2, r.lockid ≠ l.id) ∧
      (∀ r ∈ L, r.lockid ≠ l.id → r ∈ (releaseLock l L).2) ∧
      releaseLock l (releaseLock l L).2 = releaseLock l L ∧
      (∀ (now lockid ttl : Nat) (e : Entity) (n : String),
        (∀ r ∈ L, r.entity = e → r.component = n → now < r.expires →
          r.lockid = l.id) →
        acquireLock now lockid e [⟨LockingMode.Write, n⟩] ttl (releaseLock l L).2 =
          Except.ok ((releaseLock l L).2 ++
            [⟨lockid, e, n, LockingMode.Write, now + ttl⟩])) := by
  intro l L
  refine ⟨rfl, ?_, ?_, ?_, ?_⟩
  · intro r hr
    have hm := List.mem_filter.mp hr
    exact of_decide_eq_true hm.2
  · intro r hr hne
    exact List.mem_filter.mpr ⟨hr, decide_eq_true hne⟩
  · simp [releaseLock, List.filter_filter]
  · intro now lockid ttl e n hall
    have hnw : ¬ writeBlocked now e n (releaseLock l L).2 := by
      rintro ⟨r, hrmem, he, hn, hexp⟩
      have hm := List.mem_filter.mp hrmem
      exact (of_decide_eq_true hm.2) (hall r hm.1 he hn hexp)
    rw [acquireLock_cons_ok (lockInsert_write_not_blocked hnw lockid ttl), acquireLock_nil]

/-- Witness for C9: the scenario of the claim — a lock (id 5) holds a Write
lease on (entity 1, A); releasing it succeeds, leaves no row, and a subsequent
Write acquisition on (entity 1, A) succeeds. -/
theorem release_lock_idempotent_and_frees_witness :
    (releaseLock ⟨5⟩ [⟨5, ⟨1⟩, "A", LockingMode.Write, 10⟩]).1 = Except.ok () ∧
    acquireLock 0 6 ⟨1⟩ [⟨LockingMode.Write, "A"⟩] 10
        (releaseLock ⟨5⟩ [⟨5, ⟨1⟩, "A", LockingMode.Write, 10⟩]).2 =
      Except.ok ((releaseLock ⟨5⟩ [⟨5, ⟨1⟩, "A", LockingMode.Write, 10⟩]).2 ++
        [⟨6, ⟨1⟩, "A", LockingMode.Write, 10⟩]) :=
  ⟨(release_lock_idempotent_and_frees ⟨5⟩ [⟨5, ⟨1⟩, "A", LockingMode.Write, 10⟩]).1,
   (release_lock_idempotent_and_frees ⟨5⟩ [⟨5, ⟨1⟩, "A", LockingMode.Write, 10⟩]).2.2.2.2
     0 6 10 ⟨1⟩ "A" (by decide)⟩

/-! Helper lemmas about the access layer. -/

theorem sqlInsertComponent_ok_one {s s2 : Store} {n : String} {e : Entity}
    {c : String} {k : Nat} (h : sqlInsertComponent s n e c = Except.ok (k, s2)) :
    k = 1 := by
  unfold sqlInsertComponent at h
  split at h
  · cases h
  · split at h
    · cases h
    · injection h with h2
      exact (congrArg Prod.fst h2).symm

theorem writeComponents_error_implementation :
    ∀ (e : Entity) (comps : List SerializedComponent) (s : Store)
      (err : AccessError),
      writeComponents e comps s = Except.error err →
      ∃ msg, err = AccessError.Implementation msg := by
  intro e comps
  induction comps with
  | nil => intro s err h; cases h
  | cons c rest ih =>
      intro s err h
      unfold writeComponents at h
      cases hins : sqlInsertComponent (createTableIfNotExists s c.name) c.name e c.contents with
      | error msg =>
          rw [hins] at h
          injection h with h2
          exact ⟨msg, h2.symm⟩
      | ok p =>
          obtain ⟨k, s2⟩ := p
          rw [hins] at h
          rw [sqlInsertComponent_ok_one hins] at h
          simp at h
          exact ih s2 err h

/-! Theorems for the claims about the access layer. -/

/-- C4 (code bug evidence): at the failing input — writing the same component
name twice for one entity — the duplicate insert makes SQLite raise the
uniqueness-constraint error, which `write_components` wraps as
`AccessError::implementation` and propagates with the `?` operator before the
affected-row check runs; the call therefore returns an Implementation error,
never the Conflict(entity, name) the claim (and the spec) describe, and the
store is rolled back.  The second clause shows the Conflict branch of the
source is unreachable on every input. -/
theorem write_components_duplicate_not_conflict :
    writeComponentsState ⟨1⟩ [⟨"x", "A"⟩, ⟨"y", "A"⟩] [] =
      (Except.error (AccessError.Implementation "UNIQUE constraint failed"), []) ∧
    (∀ (e : Entity) (comps : List SerializedComponent) (s : Store)
        (err : AccessError),
      writeComponents e comps s = Except.error err →
      ∃ msg, err = AccessError.Implementation msg) :=
  ⟨rfl, writeComponents_error_implementation⟩

/-- Witness for C4's second clause at the failing input: the error returned
for the duplicate write is an Implementation error. -/
theorem write_components_duplicate_not_conflict_witness :
    ∃ msg, AccessError.Implementation "UNIQUE constraint failed" =
      AccessError.Implementation msg :=
  write_components_duplicate_not_conflict.2 ⟨1⟩ [⟨"x", "A"⟩, ⟨"y", "A"⟩] [] _ rfl

/-- C5: write_components is atomic: whenever it returns any error, the
component store is exactly as it was before the call (the transaction is
rolled back, discarding entries whose inserts succeeded earlier in the same
call), so any subsequent read_components returns what it would have returned
before the call. -/
theorem write_components_atomic :
    ∀ (e : Entity) (comps : List SerializedComponent) (s s2 : Store)
      (res : Except AccessError Unit) (err : AccessError) (e2 : Entity)
      (ds : List ExtractionDescriptor),
      writeComponentsState e comps s = (res, s2) →
      res = Except.error err →
      s2 = s ∧ readComponents e2 ds s2 = readComponents e2 ds s := by
  intro e comps s s2 res err e2 ds h hres
  subst hres
  unfold writeComponentsState at h
  cases hw : writeComponents e comps s with
  | ok s3 => rw [hw] at h; simp at h
  | error err2 =>
      rw [hw] at h
      obtain ⟨h1, h2⟩ := Prod.mk.injEq .. ▸ h
      subst h2
      exact ⟨rfl, rfl⟩

/-- Witness for C5: the failing duplicate write of the claim's scenario,
against a store already holding a B row for another entity: the store — and
the reading of B — is unchanged. -/
theorem write_components_atomic_witness :
    ([("B", [⟨⟨2⟩, "z"⟩])] : Store) = [("B", [⟨⟨2⟩, "z"⟩])] ∧
    readComponents ⟨2⟩ [⟨"B"⟩] [("B", [⟨⟨2⟩, "z"⟩])] =
      readComponents ⟨2⟩ [⟨"B"⟩] [("B", [⟨⟨2⟩, "z"⟩])] :=
  write_components_atomic ⟨1⟩ [⟨"x", "A"⟩, ⟨"x", "A"⟩] [("B", [⟨⟨2⟩, "z"⟩])]
    [("B", [⟨⟨2⟩, "z"⟩])] _ (AccessError.Implementation "UNIQUE constraint failed")
    ⟨2⟩ [⟨"B"⟩] rfl rfl

theorem readComponents_getElem {e : Entity} {s : Store}
    {ds : List ExtractionDescriptor} :
    ∀ (i : Nat) (d : ExtractionDescriptor), ds[i]? = some d →
      (readComponents e ds s)[i]? = some (readOne e d s) := by
  induction ds with
  | nil => intro i d h; simp at h
  | cons d0 rest ih =>
      intro i d h
      cases i with
      | zero =>
          rw [List.getElem?_cons_zero] at h
          injection h with h
          subst h
          show (readOne e d0 s :: readComponents e rest s)[0]? = some (readOne e d0 s)
          rw [List.getElem?_cons_zero]
      | succ i2 =>
          rw [List.getElem?_cons_succ] at h
          show (readOne e d0 s :: readComponents e rest s)[i2 + 1]? = _
          rw [List.getElem?_cons_succ]
          exact ih i2 d h

theorem readOne_some_elim {e : Entity} {s : Store} {d : ExtractionDescriptor}
    {c : SerializedComponent} (h : readOne e d s = some c) :
    ∃ rows r, lookupTable s d.name = some rows ∧ r ∈ rows ∧ r.entity = e ∧
      c = ⟨r.contents, d.name⟩ := by
  unfold readOne at h
  split at h
  · cases h
  · rename_i rows hrows
    obtain ⟨r, hfind, hc⟩ := Option.map_eq_some'.mp h
    refine ⟨rows, r, hrows, List.mem_of_find?_eq_some hfind, ?_, hc.symm⟩
    have := List.find?_some hfind
    exact of_decide_eq_true this

theorem readOne_none_iff {e : Entity} {s : Store} {d : ExtractionDescriptor} :
    readOne e d s = none ↔
      ∀ rows, lookupTable s d.name = some rows → ∀ r ∈ rows, r.entity ≠ e := by
  constructor
  · intro h rows hrows r hr he
    simp only [readOne, hrows, Option.map_eq_none'] at h
    have := List.find?_eq_none.mp h r hr
    simp at this
    exact this he
  · intro hall
    rcases hrows : lookupTable s d.name with _ | rows
    · simp [readOne, hrows]
    · have hfind : rows.find? (fun r2 => decide (r2.entity = e)) = none :=
        List.find?_eq_none.mpr (fun r hr => by simpa using hall rows hrows r hr)
      simp [readOne, hrows, hfind]

/-- C6: read_components returns exactly one element per descriptor, in
request order: the element for a descriptor is Some of the stored serialized
component when the component's storage holds a row for the entity and None
when absent (or when the storage was never created); equal descriptors are
resolved independently at each occurrence, yielding equal results. -/
theorem read_components_order_and_lookup :
    ∀ (e : Entity) (ds : List ExtractionDescriptor) (s : Store),
      (readComponents e ds s).length = ds.length ∧
      (∀ (i : Nat) (d : ExtractionDescriptor), ds[i]? = some d →
        (readComponents e ds s)[i]? = some (readOne e d s)) ∧
      (∀ (i j : Nat) (di dj : ExtractionDescriptor),
        ds[i]? = some di → ds[j]? = some dj → di = dj →
        (readComponents e ds s)[i]? = (readComponents e ds s)[j]?) ∧
      (∀ (d : ExtractionDescriptor) (c : SerializedComponent),
        readOne e d s = some c →
        c.name = d.name ∧ ∃ rows r, lookupTable s d.name = some rows ∧ r ∈ rows ∧
          r.entity = e ∧ c.contents = r.contents) ∧
      (∀ d : ExtractionDescriptor, readOne e d s = none ↔
        ∀ rows, lookupTable s d.name = some rows → ∀ r ∈ rows, r.entity ≠ e) := by
  intro e ds s
  refine ⟨?_, readComponents_getElem, ?_, ?_, fun d => readOne_none_iff⟩
  · induction ds with
    | nil => rfl
    | cons d rest ih => simpa [readComponents] using ih
  · intro i j di dj hi hj hdij
    rw [readComponents_getElem i di hi, readComponents_getElem j dj hj, hdij]
  · intro d c h
    obtain ⟨rows, r, hrows, hr, he, hc⟩ := readOne_some_elim h
    subst hc
    exact ⟨rfl, rows, r, hrows, hr, he, rfl⟩

/-- Witness for C6: a request naming A twice around a never-stored B, against
a store holding one A row: three results in order, the duplicate occurrences
equal, the present row characterized, and the absence of B characterized. -/
theorem read_components_order_and_lookup_witness :
    (readComponents ⟨1⟩ [⟨"A"⟩, ⟨"B"⟩, ⟨"A"⟩] [("A", [⟨⟨1⟩, "x"⟩])]).length =
      ([⟨"A"⟩, ⟨"B"⟩, ⟨"A"⟩] : List ExtractionDescriptor).length ∧
    (readComponents ⟨1⟩ [⟨"A"⟩, ⟨"B"⟩, ⟨"A"⟩] [("A", [⟨⟨1⟩, "x"⟩])])[0]? =
      some (readOne ⟨1⟩ ⟨"A"⟩ [("A", [⟨⟨1⟩, "x"⟩])]) ∧
    (readComponents ⟨1⟩ [⟨"A"⟩, ⟨"B"⟩, ⟨"A"⟩] [("A", [⟨⟨1⟩, "x"⟩])])[0]? =
      (readComponents ⟨1⟩ [⟨"A"⟩, ⟨"B"⟩, ⟨"A"⟩] [("A", [⟨⟨1⟩, "x"⟩])])[2]? ∧
    ((⟨"x", "A"⟩ : SerializedComponent).name = "A" ∧
      ∃ rows r, lookupTable [("A", [⟨⟨1⟩, "x"⟩])] "A" = some rows ∧ r ∈ rows ∧
        r.entity = ⟨1⟩ ∧ ("x" : String) = r.contents) ∧
    (readOne ⟨1⟩ ⟨"B"⟩ [("A", [⟨⟨1⟩, "x"⟩])] = none ↔
      ∀ rows, lookupTable [("A", [⟨⟨1⟩, "x"⟩])] "B" = some rows →
        ∀ r ∈ rows, r.entity ≠ ⟨1⟩) :=
  ⟨(read_components_order_and_lookup ⟨1⟩ [⟨"A"⟩, ⟨"B"⟩, ⟨"A"⟩] [("A", [⟨⟨1⟩, "x"⟩])]).1,
   (read_components_order_and_lookup ⟨1⟩ [⟨"A"⟩, ⟨"B"⟩, ⟨"A"⟩]
     [("A", [⟨⟨1⟩, "x"⟩])]).2.1 0 ⟨"A"⟩ rfl,
   (read_components_order_and_lookup ⟨1⟩ [⟨"A"⟩, ⟨"B"⟩, ⟨"A"⟩]
     [("A", [⟨⟨1⟩, "x"⟩])]).2.2.1 0 2 ⟨"A"⟩ ⟨"A"⟩ rfl rfl rfl,
   (read_components_order_and_lookup ⟨1⟩ [⟨"A"⟩, ⟨"B"⟩, ⟨"A"⟩]
     [("A", [⟨⟨1⟩, "x"⟩])]).2.2.2.1 ⟨"A"⟩ ⟨"x", "A"⟩ rfl,
   (read_components_order_and_lookup ⟨1⟩ [⟨"A"⟩, ⟨"B"⟩, ⟨"A"⟩]
     [("A", [⟨⟨1⟩, "x"⟩])]).2.2.2.2 ⟨"B"⟩⟩

/-- Counterexample for C7: in the active code no extraction descriptor is
resolved without a storage lookup — an `ExtractionDescriptor` consists solely
of a component name, and on an empty store every descriptor resolves to None,
so no descriptor behaves as an Entity pseudo-descriptor that yields the
requesting entity's identifier without any stored row. -/
theorem no_entity_pseudo_descriptor :
    ¬ ∃ d : ExtractionDescriptor, ∀ s : Store, readOne ⟨7⟩ d s ≠ none := by
  rintro ⟨d, h⟩
  exact h [] rfl

/-- C7 amended: there is no Entity pseudo-descriptor; every extraction
descriptor carries only a component name, resolves to None on a store without
a matching row, and every Some result is produced from a stored row of the
named component's storage — the entity's own identifier is never synthesized
into a result. -/
theorem extraction_resolves_only_from_storage :
    ∀ (e : Entity) (d : ExtractionDescriptor) (s : Store),
      readOne e d [] = none ∧
      (∀ c, readOne e d s = some c →
        ∃ rows r, lookupTable s d.name = some rows ∧ r ∈ rows ∧ r.entity = e ∧
          c = ⟨r.contents, d.name⟩) :=
  fun _ _ _ => ⟨rfl, fun _ h => readOne_some_elim h⟩

/-- Witness for the amended C7 theorem: the descriptor named A on a store with
one A row — resolution on the empty store is None, and the Some result on the
populated store is exactly the stored row's payload. -/
theorem extraction_resolves_only_from_storage_witness :
    readOne ⟨1⟩ ⟨"A"⟩ [] = none ∧
    ∃ rows r, lookupTable [("A", [⟨⟨1⟩, "x"⟩])] "A" = some rows ∧ r ∈ rows ∧
      r.entity = ⟨1⟩ ∧ (⟨"x", "A"⟩ : SerializedComponent) = ⟨r.contents, "A"⟩ :=
  ⟨(extraction_resolves_only_from_storage ⟨1⟩ ⟨"A"⟩ [("A", [⟨⟨1⟩, "x"⟩])]).1,
   (extraction_resolves_only_from_storage ⟨1⟩ ⟨"A"⟩ [("A", [⟨⟨1⟩, "x"⟩])]).2
     ⟨"x", "A"⟩ rfl⟩

/-! Helper lemmas about the typed query layer. -/

theorem extractorFrom_ok_some_no_none {fmt : Deserializer}
    {l : List (Option SerializedComponent)} {vs : List String}
    (h : extractorFrom fmt l = Except.ok (some vs)) :
    ∀ i : Nat, l[i]? ≠ some none := by
  induction l generalizing vs with
  | nil => intro i hi; simp at hi
  | cons hd tl ih =>
      cases hd with
      | none => simp [extractorFrom] at h
      | some c =>
          intro i hi
          have hsplit : ∃ v vs2, fmt c.contents = Except.ok v ∧
              extractorFrom fmt tl = Except.ok (some vs2) := by
            cases hf : fmt c.contents with
            | error err => simp [extractorFrom, hf] at h
            | ok v =>
                cases hrest : extractorFrom fmt tl with
                | error e2 => simp [extractorFrom, hf, hrest] at h
                | ok ov =>
                    cases ov with
                    | none => simp [extractorFrom, hf, hrest] at h
                    | some vs2 => exact ⟨v, vs2, rfl, rfl⟩
          obtain ⟨v, vs2, hf, hrest⟩ := hsplit
          cases i with
          | zero =>
              rw [List.getElem?_cons_zero] at hi
              injection hi with hi
              exact Option.noConfusion hi
          | succ i2 =>
              rw [List.getElem?_cons_succ] at hi
              exact ih hrest i2 hi

theorem extractorFrom_absent_ok_none {fmt : Deserializer} :
    ∀ (l : List (Option SerializedComponent)) (i : Nat),
      l[i]? = some none →
      (∀ (j : Nat) (c : SerializedComponent), l[j]? = some (some c) →
        ∃ v, fmt c.contents = Except.ok v) →
      extractorFrom fmt l = Except.ok none := by
  intro l
  induction l with
  | nil => intro i habs _; simp at habs
  | cons hd tl ih =>
      intro i habs hpres
      cases hd with
      | none => rfl
      | some c =>
          cases i with
          | zero =>
              rw [List.getElem?_cons_zero] at habs
              injection habs with habs
              exact Option.noConfusion habs
          | succ i2 =>
              rw [List.getElem?_cons_succ] at habs
              obtain ⟨v, hv⟩ := hpres 0 c (by rw [List.getElem?_cons_zero])
              have htl := ih i2 habs
                (fun j c2 hj => hpres (j + 1) c2 (by rw [List.getElem?_cons_succ]; exact hj))
              simp [extractorFrom, hv, htl]

theorem acquireLock_ok_rows {now lockid ttl : Nat} {e : Entity}
    {ds : List LockDescriptor} {L L1 : LockTable}
    (h : acquireLock now lockid e ds ttl L = Except.ok L1) :
    ∀ r ∈ L1, r ∈ L ∨ r.expires = now + ttl := by
  induction ds generalizing L with
  | nil =>
      rw [acquireLock_nil] at h
      injection h with h
      subst h
      exact fun r hr => Or.inl hr
  | cons d rest ih =>
      cases hins : lockInsert now lockid e ttl d L with
      | none => rw [acquireLock_cons_err hins] at h; cases h
      | some L2 =>
          rw [acquireLock_cons_ok hins] at h
          intro r hr
          rcases ih h r hr with hL2 | hexp
          · rw [lockInsert_some_elim hins] at hL2
            rcases List.mem_append.mp hL2 with h1 | h2
            · exact Or.inl h1
            · rcases List.mem_singleton.mp h2 with rfl
              exact Or.inr rfl
          · exact Or.inr hexp

/-- A concrete instance of the pluggable Format boundary whose deserialize
rejects the payload written as bad (as eci-format-json rejects a non-JSON
payload) and decodes any other payload to itself. -/
def fmtBad : Deserializer := fun c =>
  if c = "bad" then Except.error (AccessError.Serialization "malformed")
  else Except.ok c

/-! Theorems for the claims about the typed query layer. -/

/-- Counterexample for C8: an entity whose stored A payload is malformed while
B is absent from storage.  The required non-entity component B is absent, yet
get does not return Ok(None): the slot-by-slot deserialization of
`Extractor::from` hits the malformed present payload first and surfaces the
serialization error. -/
theorem get_not_found_counterexample :
    readOne ⟨1⟩ ⟨"B"⟩ [("A", [⟨⟨1⟩, "bad"⟩])] = none ∧
    (getTyped fmtBad 0 9 [Selector.readRef "A", Selector.readRef "B"] ⟨1⟩
        ⟨[("A", [⟨⟨1⟩, "bad"⟩])], []⟩).1 =
      Except.error (BackendError.Access (AccessError.Serialization "malformed")) :=
  ⟨rfl, rfl⟩

/-- C8 amended: whenever some required component of the shape is absent from
storage, get never calls acquire_lock and leaves the backend state (lease
table and component storage) unchanged; it returns Ok(None) provided every
present payload of the read deserializes successfully (otherwise the
deserialization error is surfaced instead). -/
theorem get_absent_component_no_lock :
    ∀ (fmt : Deserializer) (now lockid : Nat) (shape : List Selector) (e : Entity)
      (st : BackendState) (res : Except BackendError (Option (Lock × List String)))
      (st2 : BackendState) (tr : List BackendOp) (i : Nat),
      getTyped fmt now lockid shape e st = (res, st2, tr) →
      (readComponents e (extractShape shape) st.store)[i]? = some none →
      st2 = st ∧
      (tr.all fun op => !op.isAcquire) = true ∧
      ((∀ (j : Nat) (c : SerializedComponent),
          (readComponents e (extractShape shape) st.store)[j]? = some (some c) →
          ∃ v, fmt c.contents = Except.ok v) →
        res = Except.ok none) := by
  intro fmt now lockid shape e st res st2 tr i h habs
  unfold getTyped at h
  cases hx : extractorFrom fmt (readComponents e (extractShape shape) st.store) with
  | error err =>
      rw [hx] at h
      injection h with h1 h23
      injection h23 with h2 h3
      subst h1
      subst h2
      subst h3
      refine ⟨rfl, rfl, ?_⟩
      intro hpres
      rw [extractorFrom_absent_ok_none _ i habs hpres] at hx
      cases hx
  | ok ov =>
      cases ov with
      | none =>
          rw [hx] at h
          injection h with h1 h23
          injection h23 with h2 h3
          subst h1
          subst h2
          subst h3
          exact ⟨rfl, rfl, fun _ => rfl⟩
      | some vs => exact absurd habs (extractorFrom_ok_some_no_none hx i)

/-- Witness for the amended C8 theorem: the shape asking for B of an entity
with empty storage — the state is unchanged, the trace holds no acquire call,
and the result is the Not Found outcome. -/
theorem get_absent_component_no_lock_witness :
    (⟨[], []⟩ : BackendState) = ⟨[], []⟩ ∧
    (([BackendOp.readComps ⟨1⟩ [⟨"B"⟩]] : List BackendOp).all
      fun op => !op.isAcquire) = true ∧
    (Except.ok none : Except BackendError (Option (Lock × List String))) =
      Except.ok none := by
  have h := get_absent_component_no_lock (fun c => Except.ok c) 0 9
    [Selector.readRef "B"] ⟨1⟩ ⟨[], []⟩ (Except.ok none) ⟨[], []⟩
    [BackendOp.readComps ⟨1⟩ [⟨"B"⟩]] 0 rfl rfl
  refine ⟨h.1, h.2.1, h.2.2 ?_⟩
  intro j c hc
  cases j with
  | zero => simp [readComponents, extractShape, readOne, lookupTable, Selector.cname] at hc
  | succ j2 => simp [readComponents, extractShape, readOne, lookupTable, Selector.cname] at hc

/-- C10: every lock acquired through get carries the hard-coded ttl of 3600
seconds: every acquire_lock call in get's trace passes 3600, and every lease
row added to the table by the call expires exactly 3600 seconds after the
acquisition time; the get interface offers no ttl parameter. -/
theorem get_uses_fixed_ttl :
    ∀ (fmt : Deserializer) (now lockid : Nat) (shape : List Selector) (e : Entity)
      (st : BackendState) (res : Except BackendError (Option (Lock × List String)))
      (st2 : BackendState) (tr : List BackendOp),
      getTyped fmt now lockid shape e st = (res, st2, tr) →
      (∀ op ∈ tr, ∀ (e2 : Entity) (ds2 : List LockDescriptor) (ttl : Nat),
        op = BackendOp.acquire e2 ds2 ttl → ttl = 3600) ∧
      (∀ r ∈ st2.locks, r ∉ st.locks → r.expires = now + 3600) := by
  intro fmt now lockid shape e st res st2 tr h
  unfold getTyped at h
  cases hx : extractorFrom fmt (readComponents e (extractShape shape) st.store) with
  | error err =>
      rw [hx] at h
      injection h with h1 h23
      injection h23 with h2 h3
      subst h1
      subst h2
      subst h3
      refine ⟨?_, ?_⟩
      · intro op hop e2 ds2 ttl heq
        rcases List.mem_singleton.mp hop with rfl
        cases heq
      · intro r hr hnr
        exact absurd hr hnr
  | ok ov =>
      cases ov with
      | none =>
          rw [hx] at h
          injection h with h1 h23
          injection h23 with h2 h3
          subst h1
          subst h2
          subst h3
          refine ⟨?_, ?_⟩
          · intro op hop e2 ds2 ttl heq
            rcases List.mem_singleton.mp hop with rfl
            cases heq
          · intro r hr hnr
            exact absurd hr hnr
      | some vs =>
          rw [hx] at h
          unfold acquireLockState at h
          cases hacq : acquireLock now lockid e (describeShape shape) 3600 st.locks with
          | ok L1 =>
              rw [hacq] at h
              injection h with h1 h23
              injection h23 with h2 h3
              subst h1
              subst h2
              subst h3
              refine ⟨?_, ?_⟩
              · intro op hop e2 ds2 ttl heq
                simp only [List.mem_cons, List.not_mem_nil, or_false] at hop
                rcases hop with rfl | rfl
                · cases heq
                · injection heq with he2 hds2 httl
                  exact httl.symm
              · intro r hr hnr
                rcases acquireLock_ok_rows hacq r hr with hin | hexp
                · exact absurd hin hnr
                · exact hexp
          | error err =>
              rw [hacq] at h
              injection h with h1 h23
              injection h23 with h2 h3
              subst h1
              subst h2
              subst h3
              refine ⟨?_, ?_⟩
              · intro op hop e2 ds2 ttl heq
                simp only [List.mem_cons, List.not_mem_nil, or_false] at hop
                rcases hop with rfl | rfl
                · cases heq
                · injection heq with he2 hds2 httl
                  exact httl.symm
              · intro r hr hnr
                exact absurd hr hnr

/-- Witness for C10: a successful get of shape (read A) for an entity with A
stored: the acquire call in the trace passes 3600, and the lease row it
inserted at time 0 expires at 3600. -/
theorem get_uses_fixed_ttl_witness :
    (3600 : Nat) = 3600 ∧
    (⟨9, ⟨1⟩, "A", LockingMode.Read, 3600⟩ : LeaseRow).expires = 0 + 3600 := by
  have h := get_uses_fixed_ttl (fun c => Except.ok c) 0 9 [Selector.readRef "A"] ⟨1⟩
    ⟨[("A", [⟨⟨1⟩, "x"⟩])], []⟩ (Except.ok (some (⟨9⟩, ["x"])))
    ⟨[("A", [⟨⟨1⟩, "x"⟩])], [⟨9, ⟨1⟩, "A", LockingMode.Read, 3600⟩]⟩
    [BackendOp.readComps ⟨1⟩ [⟨"A"⟩], BackendOp.acquire ⟨1⟩ [⟨LockingMode.Read, "A"⟩] 3600]
    rfl
  refine ⟨?_, ?_⟩
  · exact h.1 (BackendOp.acquire ⟨1⟩ [⟨LockingMode.Read, "A"⟩] 3600) (by simp)
      ⟨1⟩ [⟨LockingMode.Read, "A"⟩] 3600 rfl
  · exact h.2 ⟨9, ⟨1⟩, "A", LockingMode.Read, 3600⟩ (by simp) (by simp)

end Eci
